import Mathlib

/-
Verification of the toy payments engine's account state machine.

The embedding follows `src/account.rs` and `src/transaction.rs` statement by
statement.  Monetary amounts (`Amount`, the native `f64` of the Rust source)
are modelled as IEEE-754 binary64 values with explicit round-to-nearest-even:
finite values as integer mantissa times a power of two, plus the infinities
and NaN, with addition, subtraction, negation, absolute value and the ordering
comparisons defined through the rounding function.  (The negative zero of
IEEE-754 is collapsed to +0; every operation and comparison the program
performs treats the two identically.)  Client and transaction identifiers are
natural numbers.  The `BTreeMap<TransactionId, Transaction>` history is
modelled as a key-sorted association list (`insertTx` keeps keys strictly
increasing and replaces an existing key, matching `BTreeMap::insert`;
`lookupTx` and `updateTx` mirror `get`/`get_mut`).  Each handler returns an
`Outcome`: `ok` with the new account, `fail` carrying the error and the
account as it stands at the `bail!` site, or `panic` for
`expect`/`panic!`/failed `assert!`.
-/

set_option autoImplicit false
set_option maxRecDepth 8000

namespace ToyPayments

/-- Floor of the base-2 logarithm, by fuel recursion (so that it evaluates by
kernel reduction). -/
def log2Fuel : Nat → Nat → Nat
  | 0, _ => 0
  | fuel+1, n => if n ≤ 1 then 0 else log2Fuel fuel (n / 2) + 1

/-- Floor of the base-2 logarithm of a positive natural number. -/
def natLog2 (n : Nat) : Nat := log2Fuel n n

/-- An IEEE-754 binary64 value (Rust's `f64`): NaN, a signed infinity, or a
finite value `m * 2^e`.  Finite values produced by the operations below are
canonical (mantissa below `2^53`, and either at least `2^52` or at the
subnormal exponent `-1074`; zero is `finite 0 0`).  IEEE's negative zero is
collapsed to +0, which every operation and comparison used by the program
treats identically. -/
inductive F64 where
  | nan
  | inf (negative : Bool)
  | finite (m : Int) (e : Int)
deriving DecidableEq

namespace F64

/-- Round the non-negative magnitude `n * 2^e` to the nearest binary64 value,
ties to even, overflowing to `+∞` past the largest finite double. -/
def roundPos (n : Nat) (e : Int) : F64 :=
  if n = 0 then F64.finite 0 0
  else
    let L : Int := natLog2 n
    let q : Int := max (e + L - 52) (-1074)
    if q ≤ e then
      if 971 < q then F64.inf false
      else F64.finite (Int.ofNat (n * 2 ^ (e - q).toNat)) q
    else
      let shift := (q - e).toNat
      let hi := n / 2 ^ shift
      let lo := n % 2 ^ shift
      let half := 2 ^ (shift - 1)
      let hi' := if half < lo ∨ (lo = half ∧ hi % 2 = 1) then hi + 1 else hi
      if hi' = 2 ^ 53 then
        if 971 < q + 1 then F64.inf false else F64.finite (Int.ofNat (2 ^ 52)) (q + 1)
      else if hi' = 0 then F64.finite 0 0
      else if 971 < q then F64.inf false
      else F64.finite (Int.ofNat hi') q

/-- IEEE-754 negation (with -0 collapsed to +0). -/
def neg : F64 → F64
  | nan => nan
  | inf s => inf (!s)
  | finite m e => finite (-m) e

/-- Round the exact value `M * 2^e` to the nearest binary64 value. -/
def mk (M : Int) (e : Int) : F64 :=
  if M < 0 then neg (roundPos M.natAbs e) else roundPos M.toNat e

/-- IEEE-754 binary64 addition: the exact sum, rounded. -/
def add : F64 → F64 → F64
  | nan, _ => nan
  | _, nan => nan
  | inf s1, inf s2 => if s1 = s2 then inf s1 else nan
  | inf s1, finite _ _ => inf s1
  | finite _ _, inf s2 => inf s2
  | finite m1 e1, finite m2 e2 =>
    let emin := min e1 e2
    mk (m1 * 2 ^ (e1 - emin).toNat + m2 * 2 ^ (e2 - emin).toNat) emin

/-- IEEE-754 binary64 subtraction. -/
def sub (x y : F64) : F64 := add x (neg y)

/-- IEEE-754 absolute value (`f64::abs`). -/
def fabs : F64 → F64
  | nan => nan
  | inf _ => inf false
  | finite m e => finite |m| e

/-- The IEEE-754 `<` comparison (false whenever an operand is NaN). -/
def blt : F64 → F64 → Bool
  | nan, _ => false
  | _, nan => false
  | inf s1, inf s2 => s1 && !s2
  | inf s1, finite _ _ => s1
  | finite _ _, inf s2 => !s2
  | finite m1 e1, finite m2 e2 =>
    let emin := min e1 e2
    decide (m1 * 2 ^ (e1 - emin).toNat < m2 * 2 ^ (e2 - emin).toNat)

/-- The IEEE-754 `<=` comparison (false whenever an operand is NaN). -/
def ble : F64 → F64 → Bool
  | nan, _ => false
  | _, nan => false
  | inf s1, inf s2 => s1 || !s2
  | inf s1, finite _ _ => s1
  | finite _ _, inf s2 => !s2
  | finite m1 e1, finite m2 e2 =>
    let emin := min e1 e2
    decide (m1 * 2 ^ (e1 - emin).toNat ≤ m2 * 2 ^ (e2 - emin).toNat)

/-- Non-negative: `+0`, a positive finite value, or `+∞` (not NaN). -/
def isNonNeg : F64 → Bool
  | nan => false
  | inf s => !s
  | finite m _ => decide (0 ≤ m)

end F64

instance (n : ℕ) : OfNat F64 n := ⟨F64.mk (Int.ofNat n) 0⟩
instance : Add F64 := ⟨F64.add⟩
instance : Sub F64 := ⟨F64.sub⟩
instance : Neg F64 := ⟨F64.neg⟩
instance : LT F64 := ⟨fun a b => F64.blt a b = true⟩
instance : LE F64 := ⟨fun a b => F64.ble a b = true⟩
instance (a b : F64) : Decidable (a < b) := inferInstanceAs (Decidable (_ = true))
instance (a b : F64) : Decidable (a ≤ b) := inferInstanceAs (Decidable (_ = true))

/-- Monetary amount: the source's `Amount` is a native `f64`. -/
abbrev Amount := F64

/-- Client identifier (`ClientId` in the source). -/
abbrev ClientId := ℕ

/-- Transaction identifier (`TransactionId` in the source). -/
abbrev TransactionId := ℕ

/-- `TransactionType` from `src/transaction.rs`. -/
inductive TransactionType where
  | Deposit
  | Withdrawal
  | Dispute
  | Resolve
  | Chargeback
deriving DecidableEq

/-- `Transaction` from `src/transaction.rs`.  The CSV deserializer marks
`under_dispute` with `skip_deserializing`, so every transaction handed to
`execute` by the program carries `under_dispute = false`. -/
structure Transaction where
  transaction_type : TransactionType
  client_id : ClientId
  transaction_id : TransactionId
  amount : Option Amount
  under_dispute : Bool
deriving DecidableEq

/-- The account history: `BTreeMap<TransactionId, Transaction>` as a key-sorted
association list. -/
abbrev TxMap := List (TransactionId × Transaction)

/-- `BTreeMap::get`: the value stored under key `k`. -/
def lookupTx : TxMap → TransactionId → Option Transaction
  | [], _ => none
  | e :: rest, k => if e.1 = k then some e.2 else lookupTx rest k

/-- `BTreeMap::insert`: insert keeping keys sorted, replacing an existing
entry with the same key. -/
def insertTx : TxMap → TransactionId → Transaction → TxMap
  | [], k, v => [(k, v)]
  | e :: rest, k, v =>
    if k < e.1 then (k, v) :: e :: rest
    else if k = e.1 then (k, v) :: rest
    else e :: insertTx rest k v

/-- `BTreeMap::get_mut` followed by a field write: apply `f` to the entry
stored under key `k` (the first one, which is unique in a sorted map). -/
def updateTx (f : Transaction → Transaction) : TxMap → TransactionId → TxMap
  | [], _ => []
  | e :: rest, k => if e.1 = k then (e.1, f e.2) :: rest else e :: updateTx f rest k

/-- Writing the `under_dispute` field of a stored transaction. -/
def setDispute (b : Bool) (t : Transaction) : Transaction :=
  { t with under_dispute := b }

/-- `Account` from `src/account.rs`. -/
structure Account where
  client_id : ClientId
  transactions : TxMap
  available : Amount
  held : Amount
  total : Amount
  locked : Bool
deriving DecidableEq

/-- The error taxonomy of the core (the `bail!` sites of `src/account.rs`,
named as in the specification). -/
inductive AccountError where
  | AccountLocked
  | InsufficientFunds
  | TransactionNotFound
  | AlreadyDisputed
  | NotUnderDispute
  | InvalidDisputeTarget
deriving DecidableEq

/-- Result of a handler call on an account: success with the new state,
a `bail!` carrying the state at the bail site, or a panic
(`expect` on a missing amount, the `panic!("the 'impossible' happened")`
arms, or a failed consistency `assert!`). -/
inductive Outcome where
  | ok : Account → Outcome
  | fail : AccountError → Account → Outcome
  | panic : Outcome
deriving DecidableEq

/-- `Account::new`. -/
def Account.new (client_id : ClientId) : Account :=
  { client_id := client_id
    transactions := []
    available := 0
    held := 0
    total := 0
    locked := false }

/-- `Account::handle_deposit`. -/
def Account.handle_deposit (self : Account) (transaction : Transaction) : Outcome :=
  match transaction.amount with
  | none => Outcome.panic
  | some amount =>
    Outcome.ok { self with
      available := self.available + amount
      total := self.total + amount
      transactions := insertTx self.transactions transaction.transaction_id transaction }

/-- `Account::handle_withdraw`. -/
def Account.handle_withdraw (self : Account) (transaction : Transaction) : Outcome :=
  match transaction.amount with
  | none => Outcome.panic
  | some amount =>
    if self.available < amount then
      Outcome.fail AccountError.InsufficientFunds self
    else
      Outcome.ok { self with
        available := self.available - amount
        total := self.total - amount
        transactions := insertTx self.transactions transaction.transaction_id transaction }

/-- `Account::handle_dispute`. -/
def Account.handle_dispute (self : Account) (transaction : Transaction) : Outcome :=
  match lookupTx self.transactions transaction.transaction_id with
  | none => Outcome.fail AccountError.TransactionNotFound self
  | some referenced =>
    if referenced.under_dispute then
      Outcome.fail AccountError.AlreadyDisputed self
    else
      match referenced.transaction_type with
      | TransactionType.Deposit =>
        match referenced.amount with
        | none => Outcome.panic
        | some amount =>
          if self.available < amount then
            Outcome.fail AccountError.InsufficientFunds self
          else
            Outcome.ok { self with
              available := self.available - amount
              held := self.held + amount
              transactions :=
                updateTx (setDispute true) self.transactions transaction.transaction_id }
      | TransactionType.Withdrawal => Outcome.fail AccountError.InvalidDisputeTarget self
      | _ => Outcome.panic

/-- `Account::handle_resolve`. -/
def Account.handle_resolve (self : Account) (transaction : Transaction) : Outcome :=
  match lookupTx self.transactions transaction.transaction_id with
  | none => Outcome.fail AccountError.TransactionNotFound self
  | some referenced =>
    if referenced.under_dispute = false then
      Outcome.fail AccountError.NotUnderDispute self
    else
      match referenced.transaction_type with
      | TransactionType.Deposit =>
        match referenced.amount with
        | none => Outcome.panic
        | some amount =>
          Outcome.ok { self with
            available := self.available + amount
            held := self.held - amount
            transactions :=
              updateTx (setDispute false) self.transactions transaction.transaction_id }
      | TransactionType.Withdrawal => Outcome.fail AccountError.InvalidDisputeTarget self
      | _ => Outcome.panic

/-- `Account::handle_chargeback`.  Note: the referenced transaction's
`under_dispute` flag is left `true` and the history is not modified. -/
def Account.handle_chargeback (self : Account) (transaction : Transaction) : Outcome :=
  match lookupTx self.transactions transaction.transaction_id with
  | none => Outcome.fail AccountError.TransactionNotFound self
  | some referenced =>
    if referenced.under_dispute = false then
      Outcome.fail AccountError.NotUnderDispute self
    else
      match referenced.amount with
      | none => Outcome.panic
      | some amount =>
        Outcome.ok { self with
          held := self.held - amount
          total := self.total - amount
          locked := true }

/-- The binary64 value of the source's literal `0.0001` (`let eps = 0.0001`). -/
def eps : Amount := F64.finite 7378697629483821 (-66)

/-- `Account::check_consistency`: the three `assert!`s with `eps = 0.0001`,
each computed in binary64 arithmetic. -/
def Account.check_consistency (self : Account) : Bool :=
  decide (F64.fabs (self.total - (self.available + self.held)) < eps) &&
  decide (F64.fabs (self.held - (self.total - self.available)) < eps) &&
  decide (F64.fabs (self.available - (self.total - self.held)) < eps)

/-- The `match transaction.transaction_type` dispatch inside `Account::execute`. -/
def Account.dispatch (self : Account) (transaction : Transaction) : Outcome :=
  match transaction.transaction_type with
  | TransactionType.Deposit => self.handle_deposit transaction
  | TransactionType.Withdrawal => self.handle_withdraw transaction
  | TransactionType.Dispute => self.handle_dispute transaction
  | TransactionType.Resolve => self.handle_resolve transaction
  | TransactionType.Chargeback => self.handle_chargeback transaction

/-- `Account::execute`: lock check, dispatch by kind, then the consistency
assertion (whose failure is a panic). -/
def Account.execute (self : Account) (transaction : Transaction) : Outcome :=
  if self.locked then
    Outcome.fail AccountError.AccountLocked self
  else
    match self.dispatch transaction with
    | Outcome.ok next => if next.check_consistency then Outcome.ok next else Outcome.panic
    | other => other

/-- The guarantee the CSV deserializer gives about every transaction that
reaches `execute` (`#[serde(skip_deserializing)] under_dispute`). -/
def InputOk (t : Transaction) : Prop := t.under_dispute = false

/-- Input transactions whose amounts, when present, are non-negative
(in addition to the deserializer guarantee). -/
def InputNN (t : Transaction) : Prop :=
  t.under_dispute = false ∧ ∀ q : Amount, t.amount = some q → 0 ≤ q

/-- Account states reachable from `Account::new` by successful `execute`
calls whose inputs satisfy `P`. -/
inductive ReachableVia (P : Transaction → Prop) : Account → Prop
  | init : ∀ c : ClientId, ReachableVia P (Account.new c)
  | step : ∀ {a : Account} {t : Transaction} {a' : Account},
      ReachableVia P a → P t → Account.execute a t = Outcome.ok a' → ReachableVia P a'

/-- Account states reachable from a fresh account through the program
(deserialized transactions have `under_dispute = false`). -/
def Reachable (a : Account) : Prop := ReachableVia InputOk a

/-- Account states reachable when, in addition, every executed amount is
non-negative. -/
def ReachableNN (a : Account) : Prop := ReachableVia InputNN a

/-- Account states reachable by arbitrary `execute` calls, with no assumption
at all on the input transactions. -/
def ReachableAny (a : Account) : Prop := ReachableVia (fun _ => True) a

/-! ### Lemmas about the history map -/

lemma mem_insertTx {m : TxMap} {k : TransactionId} {v : Transaction}
    {e : TransactionId × Transaction} (he : e ∈ insertTx m k v) : e = (k, v) ∨ e ∈ m := by
  induction m with
  | nil => simpa [insertTx] using he
  | cons hd tl ih =>
    by_cases h1 : k < hd.1
    · simp only [insertTx, if_pos h1, List.mem_cons] at he
      rcases he with h | h | h
      · exact Or.inl h
      · exact Or.inr (by simp [h])
      · exact Or.inr (List.mem_cons_of_mem _ h)
    · by_cases h2 : k = hd.1
      · simp only [insertTx, if_neg h1, if_pos h2, List.mem_cons] at he
        rcases he with h | h
        · exact Or.inl h
        · exact Or.inr (List.mem_cons_of_mem _ h)
      · simp only [insertTx, if_neg h1, if_neg h2, List.mem_cons] at he
        rcases he with h | h
        · exact Or.inr (by simp [h])
        · rcases ih h with h' | h'
          · exact Or.inl h'
          · exact Or.inr (List.mem_cons_of_mem _ h')

lemma lookupTx_insertTx_self (m : TxMap) (k : TransactionId) (v : Transaction) :
    lookupTx (insertTx m k v) k = some v := by
  induction m with
  | nil => simp [insertTx, lookupTx]
  | cons hd tl ih =>
    by_cases h1 : k < hd.1
    · simp [insertTx, h1, lookupTx]
    · by_cases h2 : k = hd.1
      · simp [insertTx, h1, h2, lookupTx]
      · have hne : hd.1 ≠ k := fun h => h2 h.symm
        simp [insertTx, h1, h2, lookupTx, hne, ih]

lemma lookupTx_mem {m : TxMap} {k : TransactionId} {v : Transaction}
    (h : lookupTx m k = some v) : (k, v) ∈ m := by
  induction m with
  | nil => cases h
  | cons hd tl ih =>
    by_cases h1 : hd.1 = k
    · subst h1
      simp only [lookupTx, if_true, eq_self_iff_true, Option.some.injEq] at h
      subst h
      simp
    · simp only [lookupTx, if_neg h1] at h
      exact List.mem_cons_of_mem _ (ih h)

/-- A successful lookup splits the history around the found entry. -/
lemma lookupTx_decomp {m : TxMap} {k : TransactionId} {v : Transaction}
    (h : lookupTx m k = some v) :
    ∃ m₁ m₂, m = m₁ ++ (k, v) :: m₂ ∧ ∀ e ∈ m₁, e.1 ≠ k := by
  induction m with
  | nil => cases h
  | cons hd tl ih =>
    by_cases h1 : hd.1 = k
    · subst h1
      simp only [lookupTx, if_true, eq_self_iff_true, Option.some.injEq] at h
      subst h
      exact ⟨[], tl, by simp, by simp⟩
    · simp only [lookupTx, if_neg h1] at h
      obtain ⟨m₁, m₂, hm, hne⟩ := ih h
      refine ⟨hd :: m₁, m₂, by simp [hm], ?_⟩
      intro e he
      rcases List.mem_cons.mp he with rfl | he'
      · exact h1
      · exact hne e he'

lemma lookupTx_append_right {m₁ m₂ : TxMap} {k : TransactionId} (v : Transaction)
    (h : ∀ e ∈ m₁, e.1 ≠ k) : lookupTx (m₁ ++ (k, v) :: m₂) k = some v := by
  induction m₁ with
  | nil => simp [lookupTx]
  | cons hd tl ih =>
    have hne : hd.1 ≠ k := h hd (List.mem_cons_self _ _)
    simp only [List.cons_append, lookupTx, if_neg hne]
    exact ih fun e he => h e (List.mem_cons_of_mem _ he)

lemma updateTx_append {f : Transaction → Transaction} {m₁ m₂ : TxMap}
    {k : TransactionId} {v : Transaction} (h : ∀ e ∈ m₁, e.1 ≠ k) :
    updateTx f (m₁ ++ (k, v) :: m₂) k = m₁ ++ (k, f v) :: m₂ := by
  induction m₁ with
  | nil => simp [updateTx]
  | cons hd tl ih =>
    have hne : hd.1 ≠ k := h hd (List.mem_cons_self _ _)
    simp only [List.cons_append, updateTx, if_neg hne, List.cons.injEq, true_and]
    exact ih fun e he => h e (List.mem_cons_of_mem _ he)

/-- Updating the entry found by a lookup: the decomposition of the history
around that entry. -/
lemma updateTx_of_lookup {f : Transaction → Transaction} {m : TxMap}
    {k : TransactionId} {v : Transaction} (h : lookupTx m k = some v) :
    ∃ m₁ m₂, m = m₁ ++ (k, v) :: m₂ ∧ (∀ e ∈ m₁, e.1 ≠ k) ∧
      updateTx f m k = m₁ ++ (k, f v) :: m₂ := by
  obtain ⟨m₁, m₂, hm, hne⟩ := lookupTx_decomp h
  exact ⟨m₁, m₂, hm, hne, by rw [hm, updateTx_append hne]⟩

@[simp] lemma setDispute_type (b : Bool) (t : Transaction) :
    (setDispute b t).transaction_type = t.transaction_type := rfl

@[simp] lemma setDispute_amount (b : Bool) (t : Transaction) :
    (setDispute b t).amount = t.amount := rfl

@[simp] lemma setDispute_flag (b : Bool) (t : Transaction) :
    (setDispute b t).under_dispute = b := rfl

lemma setDispute_eq_self {t : Transaction} {b : Bool} (h : t.under_dispute = b) :
    setDispute b t = t := by
  cases t
  simp only [setDispute]
  simp_all

/-! ### Characterization of the handlers -/

lemma handle_deposit_ok {a : Account} {t : Transaction} {a' : Account}
    (h : Account.handle_deposit a t = Outcome.ok a') :
    ∃ amt, t.amount = some amt ∧
      a' = { a with
        available := a.available + amt
        total := a.total + amt
        transactions := insertTx a.transactions t.transaction_id t } := by
  cases ha : t.amount with
  | none =>
    simp only [Account.handle_deposit, ha] at h
    exact Outcome.noConfusion h
  | some amt =>
    simp only [Account.handle_deposit, ha] at h
    exact ⟨amt, rfl, (Outcome.ok.inj h).symm⟩

lemma handle_withdraw_ok {a : Account} {t : Transaction} {a' : Account}
    (h : Account.handle_withdraw a t = Outcome.ok a') :
    ∃ amt, t.amount = some amt ∧ ¬ a.available < amt ∧
      a' = { a with
        available := a.available - amt
        total := a.total - amt
        transactions := insertTx a.transactions t.transaction_id t } := by
  cases ha : t.amount with
  | none =>
    simp only [Account.handle_withdraw, ha] at h
    exact Outcome.noConfusion h
  | some amt =>
    by_cases hlt : a.available < amt
    · simp only [Account.handle_withdraw, ha, if_pos hlt] at h
      exact Outcome.noConfusion h
    · simp only [Account.handle_withdraw, ha, if_neg hlt] at h
      exact ⟨amt, rfl, hlt, (Outcome.ok.inj h).symm⟩

lemma handle_dispute_ok {a : Account} {t : Transaction} {a' : Account}
    (h : Account.handle_dispute a t = Outcome.ok a') :
    ∃ ref amt, lookupTx a.transactions t.transaction_id = some ref ∧
      ref.under_dispute = false ∧
      ref.transaction_type = TransactionType.Deposit ∧
      ref.amount = some amt ∧ ¬ a.available < amt ∧
      a' = { a with
        available := a.available - amt
        held := a.held + amt
        transactions := updateTx (setDispute true) a.transactions t.transaction_id } := by
  cases href : lookupTx a.transactions t.transaction_id with
  | none =>
    simp only [Account.handle_dispute, href] at h
    exact Outcome.noConfusion h
  | some ref =>
    cases hud : ref.under_dispute with
    | true =>
      simp only [Account.handle_dispute, href, hud, if_true] at h
      exact Outcome.noConfusion h
    | false =>
      cases hty : ref.transaction_type <;>
          simp only [Account.handle_dispute, href, hud, Bool.false_eq_true, if_false, hty] at h <;>
        try exact Outcome.noConfusion h
      case Deposit =>
        cases ha : ref.amount with
        | none =>
          simp only [ha] at h
          exact Outcome.noConfusion h
        | some amt =>
          by_cases hlt : a.available < amt
          · simp only [ha, if_pos hlt] at h
            exact Outcome.noConfusion h
          · simp only [ha, if_neg hlt] at h
            exact ⟨ref, amt, rfl, hud, hty, ha, hlt, (Outcome.ok.inj h).symm⟩

lemma handle_resolve_ok {a : Account} {t : Transaction} {a' : Account}
    (h : Account.handle_resolve a t = Outcome.ok a') :
    ∃ ref amt, lookupTx a.transactions t.transaction_id = some ref ∧
      ref.under_dispute = true ∧
      ref.transaction_type = TransactionType.Deposit ∧
      ref.amount = some amt ∧
      a' = { a with
        available := a.available + amt
        held := a.held - amt
        transactions := updateTx (setDispute false) a.transactions t.transaction_id } := by
  cases href : lookupTx a.transactions t.transaction_id with
  | none =>
    simp only [Account.handle_resolve, href] at h
    exact Outcome.noConfusion h
  | some ref =>
    cases hud : ref.under_dispute with
    | false =>
      simp only [Account.handle_resolve, href, hud, eq_self_iff_true, if_true] at h
      exact Outcome.noConfusion h
    | true =>
      cases hty : ref.transaction_type <;>
          simp only [Account.handle_resolve, href, hud, Bool.true_eq_false, if_false, hty] at h <;>
        try exact Outcome.noConfusion h
      case Deposit =>
        cases ha : ref.amount with
        | none =>
          simp only [ha] at h
          exact Outcome.noConfusion h
        | some amt =>
          simp only [ha] at h
          exact ⟨ref, amt, rfl, hud, hty, ha, (Outcome.ok.inj h).symm⟩

lemma handle_chargeback_ok {a : Account} {t : Transaction} {a' : Account}
    (h : Account.handle_chargeback a t = Outcome.ok a') :
    ∃ ref amt, lookupTx a.transactions t.transaction_id = some ref ∧
      ref.under_dispute = true ∧
      ref.amount = some amt ∧
      a' = { a with
        held := a.held - amt
        total := a.total - amt
        locked := true } := by
  cases href : lookupTx a.transactions t.transaction_id with
  | none =>
    simp only [Account.handle_chargeback, href] at h
    exact Outcome.noConfusion h
  | some ref =>
    cases hud : ref.under_dispute with
    | false =>
      simp only [Account.handle_chargeback, href, hud, eq_self_iff_true, if_true] at h
      exact Outcome.noConfusion h
    | true =>
      cases ha : ref.amount with
      | none =>
        simp only [Account.handle_chargeback, href, hud, Bool.true_eq_false, if_false, ha] at h
        exact Outcome.noConfusion h
      | some amt =>
        simp only [Account.handle_chargeback, href, hud, Bool.true_eq_false, if_false, ha] at h
        exact ⟨ref, amt, rfl, hud, ha, (Outcome.ok.inj h).symm⟩

lemma handle_deposit_fail {a : Account} {t : Transaction} {e : AccountError} {b : Account}
    (h : Account.handle_deposit a t = Outcome.fail e b) : b = a := by
  cases ha : t.amount <;> simp only [Account.handle_deposit, ha] at h <;>
    exact Outcome.noConfusion h

lemma handle_withdraw_fail {a : Account} {t : Transaction} {e : AccountError} {b : Account}
    (h : Account.handle_withdraw a t = Outcome.fail e b) : b = a := by
  cases ha : t.amount with
  | none =>
    simp only [Account.handle_withdraw, ha] at h
    exact Outcome.noConfusion h
  | some amt =>
    by_cases hlt : a.available < amt
    · simp only [Account.handle_withdraw, ha, if_pos hlt] at h
      exact (Outcome.fail.inj h).2.symm
    · simp only [Account.handle_withdraw, ha, if_neg hlt] at h
      exact Outcome.noConfusion h

lemma handle_dispute_fail {a : Account} {t : Transaction} {e : AccountError} {b : Account}
    (h : Account.handle_dispute a t = Outcome.fail e b) : b = a := by
  cases href : lookupTx a.transactions t.transaction_id with
  | none =>
    simp only [Account.handle_dispute, href] at h
    exact (Outcome.fail.inj h).2.symm
  | some ref =>
    cases hud : ref.under_dispute with
    | true =>
      simp only [Account.handle_dispute, href, hud, if_true] at h
      exact (Outcome.fail.inj h).2.symm
    | false =>
      cases hty : ref.transaction_type <;>
          simp only [Account.handle_dispute, href, hud, Bool.false_eq_true, if_false, hty] at h <;>
        try exact Outcome.noConfusion h
      case Deposit =>
        cases ha : ref.amount with
        | none =>
          simp only [ha] at h
          exact Outcome.noConfusion h
        | some amt =>
          by_cases hlt : a.available < amt
          · simp only [ha, if_pos hlt] at h
            exact (Outcome.fail.inj h).2.symm
          · simp only [ha, if_neg hlt] at h
            exact Outcome.noConfusion h
      case Withdrawal => exact (Outcome.fail.inj h).2.symm

lemma handle_resolve_fail {a : Account} {t : Transaction} {e : AccountError} {b : Account}
    (h : Account.handle_resolve a t = Outcome.fail e b) : b = a := by
  cases href : lookupTx a.transactions t.transaction_id with
  | none =>
    simp only [Account.handle_resolve, href] at h
    exact (Outcome.fail.inj h).2.symm
  | some ref =>
    cases hud : ref.under_dispute with
    | false =>
      simp only [Account.handle_resolve, href, hud, eq_self_iff_true, if_true] at h
      exact (Outcome.fail.inj h).2.symm
    | true =>
      cases hty : ref.transaction_type <;>
          simp only [Account.handle_resolve, href, hud, Bool.true_eq_false, if_false, hty] at h <;>
        try exact Outcome.noConfusion h
      case Deposit =>
        cases ha : ref.amount <;> simp only [ha] at h <;> exact Outcome.noConfusion h
      case Withdrawal => exact (Outcome.fail.inj h).2.symm

lemma handle_chargeback_fail {a : Account} {t : Transaction} {e : AccountError} {b : Account}
    (h : Account.handle_chargeback a t = Outcome.fail e b) : b = a := by
  cases href : lookupTx a.transactions t.transaction_id with
  | none =>
    simp only [Account.handle_chargeback, href] at h
    exact (Outcome.fail.inj h).2.symm
  | some ref =>
    cases hud : ref.under_dispute with
    | false =>
      simp only [Account.handle_chargeback, href, hud, eq_self_iff_true, if_true] at h
      exact (Outcome.fail.inj h).2.symm
    | true =>
      cases ha : ref.amount <;>
          simp only [Account.handle_chargeback, href, hud, Bool.true_eq_false, if_false, ha] at h <;>
        exact Outcome.noConfusion h

lemma dispatch_fail {a : Account} {t : Transaction} {e : AccountError} {b : Account}
    (h : Account.dispatch a t = Outcome.fail e b) : b = a := by
  cases hty : t.transaction_type <;> simp only [Account.dispatch, hty] at h
  case Deposit => exact handle_deposit_fail h
  case Withdrawal => exact handle_withdraw_fail h
  case Dispute => exact handle_dispute_fail h
  case Resolve => exact handle_resolve_fail h
  case Chargeback => exact handle_chargeback_fail h

/-! ### Characterization of `execute` -/

lemma execute_ok {a : Account} {t : Transaction} {a' : Account}
    (h : Account.execute a t = Outcome.ok a') :
    a.locked = false ∧ Account.dispatch a t = Outcome.ok a' ∧
      Account.check_consistency a' = true := by
  cases hl : a.locked with
  | true =>
    simp only [Account.execute, hl, if_true] at h
    exact Outcome.noConfusion h
  | false =>
    cases hd : Account.dispatch a t with
    | ok next =>
      cases hc : Account.check_consistency next with
      | true =>
        simp only [Account.execute, hl, Bool.false_eq_true, if_false, hd, hc, if_true] at h
        obtain rfl : next = a' := Outcome.ok.inj h
        exact ⟨rfl, rfl, hc⟩
      | false =>
        simp only [Account.execute, hl, Bool.false_eq_true, if_false, hd, hc] at h
        exact Outcome.noConfusion h
    | fail e b =>
      simp only [Account.execute, hl, Bool.false_eq_true, if_false, hd] at h
      exact Outcome.noConfusion h
    | panic =>
      simp only [Account.execute, hl, Bool.false_eq_true, if_false, hd] at h
      exact Outcome.noConfusion h

lemma execute_fail {a : Account} {t : Transaction} {e : AccountError} {b : Account}
    (h : Account.execute a t = Outcome.fail e b) : b = a := by
  cases hl : a.locked with
  | true =>
    simp only [Account.execute, hl, if_true] at h
    exact (Outcome.fail.inj h).2.symm
  | false =>
    cases hd : Account.dispatch a t with
    | ok next =>
      cases hc : Account.check_consistency next with
      | true =>
        simp only [Account.execute, hl, Bool.false_eq_true, if_false, hd, hc, if_true] at h
        exact Outcome.noConfusion h
      | false =>
        simp only [Account.execute, hl, Bool.false_eq_true, if_false, hd, hc] at h
        exact Outcome.noConfusion h
    | fail e' b' =>
      simp only [Account.execute, hl, Bool.false_eq_true, if_false, hd] at h
      obtain ⟨he, hb⟩ := Outcome.fail.inj h
      subst he
      subst hb
      exact dispatch_fail hd
    | panic =>
      simp only [Account.execute, hl, Bool.false_eq_true, if_false, hd] at h
      exact Outcome.noConfusion h

lemma execute_of_dispatch_ok {a : Account} {t : Transaction} {a' : Account}
    (hl : a.locked = false) (hd : Account.dispatch a t = Outcome.ok a')
    (hc : Account.check_consistency a' = true) :
    Account.execute a t = Outcome.ok a' := by
  simp only [Account.execute, hl, Bool.false_eq_true, if_false, hd, hc, if_true]

lemma execute_of_dispatch_fail {a : Account} {t : Transaction} {e : AccountError} {b : Account}
    (hl : a.locked = false) (hd : Account.dispatch a t = Outcome.fail e b) :
    Account.execute a t = Outcome.fail e b := by
  simp only [Account.execute, hl, Bool.false_eq_true, if_false, hd]



/-- `execute` after a successful dispatch: the consistency assertion decides
between success and a panic. -/
lemma execute_eq_ite {a : Account} {t : Transaction} {a' : Account}
    (hl : a.locked = false) (hd : Account.dispatch a t = Outcome.ok a') :
    Account.execute a t =
      if a'.check_consistency then Outcome.ok a' else Outcome.panic := by
  simp only [Account.execute, hl, Bool.false_eq_true, if_false, hd]

/-! ### The reachability invariant on the history -/

/-- Well-formedness of a stored history entry: only deposits and withdrawals
are retained, always carrying an amount, and a stored withdrawal is never
marked disputed. -/
def EntryWF (t : Transaction) : Prop :=
  (t.transaction_type = TransactionType.Deposit ∨
    t.transaction_type = TransactionType.Withdrawal) ∧
  (∃ q : Amount, t.amount = some q) ∧
  (t.transaction_type = TransactionType.Withdrawal → t.under_dispute = false)

/-- All entries of a history are well-formed. -/
def HistWF (m : TxMap) : Prop := ∀ e ∈ m, EntryWF e.2

lemma entryWF_setDispute_deposit {ref : Transaction} (b : Bool)
    (hrty : ref.transaction_type = TransactionType.Deposit)
    (hwf : EntryWF ref) : EntryWF (setDispute b ref) := by
  obtain ⟨hor, ⟨q, hq⟩, hwd⟩ := hwf
  refine ⟨Or.inl (by simp [hrty]), ⟨q, by simp [hq]⟩, ?_⟩
  intro hw
  rw [setDispute_type] at hw
  rw [hw] at hrty
  exact TransactionType.noConfusion hrty

lemma histWF_updateTx_deposit {m : TxMap} {k : TransactionId} {ref : Transaction} (b : Bool)
    (hwf : HistWF m) (href : lookupTx m k = some ref)
    (hrty : ref.transaction_type = TransactionType.Deposit) :
    HistWF (updateTx (setDispute b) m k) := by
  obtain ⟨m₁, m₂, hm, hne⟩ := lookupTx_decomp href
  rw [hm, updateTx_append hne]
  intro e he
  rcases List.mem_append.mp he with he₁ | he₂
  · exact hwf e (hm ▸ List.mem_append_left _ he₁)
  · rcases List.mem_cons.mp he₂ with rfl | he₃
    · exact entryWF_setDispute_deposit b hrty (hwf (k, ref) (hm ▸ by simp))
    · exact hwf e (hm ▸ List.mem_append_right _ (List.mem_cons_of_mem _ he₃))

lemma dispatch_histWF {a : Account} {t : Transaction} {a' : Account}
    (hwf : HistWF a.transactions) (hin : t.under_dispute = false)
    (hd : Account.dispatch a t = Outcome.ok a') :
    HistWF a'.transactions := by
  cases hty : t.transaction_type <;> simp only [Account.dispatch, hty] at hd
  case Deposit =>
    obtain ⟨amt, ha, rfl⟩ := handle_deposit_ok hd
    intro e he
    rcases mem_insertTx he with rfl | he'
    · exact ⟨Or.inl hty, ⟨amt, ha⟩, fun hw => by
        rw [hw] at hty; exact TransactionType.noConfusion hty⟩
    · exact hwf e he'
  case Withdrawal =>
    obtain ⟨amt, ha, hle, rfl⟩ := handle_withdraw_ok hd
    intro e he
    rcases mem_insertTx he with rfl | he'
    · exact ⟨Or.inr hty, ⟨amt, ha⟩, fun _ => hin⟩
    · exact hwf e he'
  case Dispute =>
    obtain ⟨ref, amt, href, hud, hrty, ha, hle, rfl⟩ := handle_dispute_ok hd
    exact histWF_updateTx_deposit true hwf href hrty
  case Resolve =>
    obtain ⟨ref, amt, href, hud, hrty, ha, rfl⟩ := handle_resolve_ok hd
    exact histWF_updateTx_deposit false hwf href hrty
  case Chargeback =>
    obtain ⟨ref, amt, href, hud, ha, rfl⟩ := handle_chargeback_ok hd
    exact hwf

lemma reachable_via_histWF {P : Transaction → Prop}
    (hP : ∀ t, P t → t.under_dispute = false) {a : Account}
    (h : ReachableVia P a) : HistWF a.transactions := by
  induction h with
  | init c =>
    intro e he
    simp [Account.new] at he
  | step hr ht hex ih =>
    obtain ⟨hl, hd, hc⟩ := execute_ok hex
    exact dispatch_histWF ih (hP _ ht) hd

lemma reachable_histWF {a : Account} (h : Reachable a) : HistWF a.transactions :=
  reachable_via_histWF (fun _ ht => ht) h

/-! ### Sign lemmas for the binary64 model -/

lemma F64.roundPos_isNonNeg (n : Nat) (e : Int) :
    (F64.roundPos n e).isNonNeg = true := by
  unfold F64.roundPos
  dsimp only
  split_ifs <;> rfl

lemma F64.mk_isNonNeg {M : Int} (e : Int) (h : 0 ≤ M) :
    (F64.mk M e).isNonNeg = true := by
  unfold F64.mk
  rw [if_neg (not_lt.mpr h)]
  exact F64.roundPos_isNonNeg _ _

lemma F64.add_isNonNeg {x y : F64} (hx : x.isNonNeg = true) (hy : y.isNonNeg = true) :
    (x + y).isNonNeg = true := by
  show (F64.add x y).isNonNeg = true
  cases x with
  | nan => simp [F64.isNonNeg] at hx
  | inf s =>
    simp only [F64.isNonNeg, Bool.not_eq_true'] at hx
    subst hx
    cases y with
    | nan => simp [F64.isNonNeg] at hy
    | inf s' =>
      simp only [F64.isNonNeg, Bool.not_eq_true'] at hy
      subst hy
      rfl
    | finite m2 e2 => rfl
  | finite m1 e1 =>
    have hm1 : (0 : Int) ≤ m1 := by simpa [F64.isNonNeg] using hx
    cases y with
    | nan => simp [F64.isNonNeg] at hy
    | inf s' =>
      simp only [F64.isNonNeg, Bool.not_eq_true'] at hy
      subst hy
      rfl
    | finite m2 e2 =>
      have hm2 : (0 : Int) ≤ m2 := by simpa [F64.isNonNeg] using hy
      show (F64.mk _ _).isNonNeg = true
      refine F64.mk_isNonNeg _ ?_
      have h2 : (0 : Int) < 2 := by norm_num
      exact add_nonneg (mul_nonneg hm1 (pow_nonneg h2.le _))
        (mul_nonneg hm2 (pow_nonneg h2.le _))

lemma F64.sub_isNonNeg_or_nan {x y : F64} (hx : x.isNonNeg = true)
    (hlt : F64.blt x y = false) :
    (x - y).isNonNeg = true ∨ x - y = F64.nan := by
  show (F64.add x (F64.neg y)).isNonNeg = true ∨ F64.add x (F64.neg y) = F64.nan
  cases x with
  | nan => simp [F64.isNonNeg] at hx
  | inf s =>
    simp only [F64.isNonNeg, Bool.not_eq_true'] at hx
    subst hx
    cases y with
    | nan => exact Or.inr rfl
    | inf s' =>
      cases s'
      · exact Or.inr rfl
      · exact Or.inl rfl
    | finite m2 e2 => exact Or.inl rfl
  | finite m1 e1 =>
    have hm1 : (0 : Int) ≤ m1 := by simpa [F64.isNonNeg] using hx
    cases y with
    | nan => exact Or.inr rfl
    | inf s' =>
      cases s'
      · simp [F64.blt] at hlt
      · exact Or.inl rfl
    | finite m2 e2 =>
      refine Or.inl ?_
      show (F64.mk _ _).isNonNeg = true
      refine F64.mk_isNonNeg _ ?_
      simp only [F64.blt, decide_eq_false_iff_not, not_lt] at hlt
      have : -m2 * 2 ^ (e2 - min e1 e2).toNat = -(m2 * 2 ^ (e2 - min e1 e2).toNat) := by
        ring
      rw [this]
      omega

lemma F64.zero_le_iff (y : F64) : (0 : F64) ≤ y ↔ y.isNonNeg = true := by
  show F64.ble (F64.finite 0 0) y = true ↔ y.isNonNeg = true
  cases y with
  | nan => simp [F64.ble, F64.isNonNeg]
  | inf s => cases s <;> simp [F64.ble, F64.isNonNeg]
  | finite m e =>
    simp only [F64.ble, F64.isNonNeg, decide_eq_true_eq, zero_mul]
    constructor
    · intro h
      by_contra hneg
      push_neg at hneg
      have h2 : (0 : Int) < 2 ^ (e - min 0 e).toNat := pow_pos (by norm_num) _
      nlinarith
    · intro h
      exact mul_nonneg h (pow_nonneg (by norm_num) _)

/-- If the available balance is NaN, the third consistency assertion fails. -/
lemma check_eq_false_of_nan {a : Account} (h : a.available = F64.nan) :
    Account.check_consistency a = false := by
  have hsub : ∀ z : F64, F64.nan - z = F64.nan := by
    intro z
    cases z <;> rfl
  have h3 : F64.fabs (a.available - (a.total - a.held)) = F64.nan := by
    rw [h, hsub]
    rfl
  unfold Account.check_consistency
  rw [h3]
  have hb : decide (F64.nan < eps) = false := rfl
  rw [hb]
  simp

/-! ### The non-negativity invariant (for non-negative input amounts) -/

/-- Every stored entry's amount is non-negative (in the IEEE sense). -/
def AmountsNN (m : TxMap) : Prop := ∀ e ∈ m, (e.2.amount.getD 0).isNonNeg = true

/-- The invariant maintained under non-negative inputs: the available balance
is non-negative (it is never NaN on a reachable state, since the consistency
assertion rejects NaN), and all stored amounts are non-negative. -/
def InvNN (a : Account) : Prop :=
  a.available.isNonNeg = true ∧ AmountsNN a.transactions

lemma amountsNN_insertTx {m : TxMap} {k : TransactionId} {v : Transaction}
    (hm : AmountsNN m) (hv : (v.amount.getD 0).isNonNeg = true) :
    AmountsNN (insertTx m k v) := by
  intro e he
  rcases mem_insertTx he with rfl | he'
  · exact hv
  · exact hm e he'

lemma amountsNN_updateTx_setDispute {m : TxMap} {k : TransactionId}
    {ref : Transaction} (b : Bool) (hm : AmountsNN m)
    (href : lookupTx m k = some ref) :
    AmountsNN (updateTx (setDispute b) m k) := by
  obtain ⟨m₁, m₂, hmeq, hne, hupd⟩ := updateTx_of_lookup href
  rw [hupd]
  intro e he
  rcases List.mem_append.mp he with he₁ | he₂
  · exact hm e (hmeq ▸ List.mem_append_left _ he₁)
  · rcases List.mem_cons.mp he₂ with rfl | he₃
    · have hE : (ref.amount.getD 0).isNonNeg = true := hm (k, ref) (hmeq ▸ by simp)
      simpa using hE
    · exact hm e (hmeq ▸ List.mem_append_right _ (List.mem_cons_of_mem _ he₃))

lemma dispatch_invNN {a : Account} {t : Transaction} {a' : Account}
    (iv : InvNN a) (hq : ∀ q : Amount, t.amount = some q → 0 ≤ q)
    (hd : Account.dispatch a t = Outcome.ok a')
    (hchk : Account.check_consistency a' = true) : InvNN a' := by
  obtain ⟨hav, hnn⟩ := iv
  cases hty : t.transaction_type <;> simp only [Account.dispatch, hty] at hd
  case Deposit =>
    obtain ⟨amt, ha, rfl⟩ := handle_deposit_ok hd
    have hamt : amt.isNonNeg = true := (F64.zero_le_iff amt).mp (hq amt ha)
    exact ⟨F64.add_isNonNeg hav hamt, amountsNN_insertTx hnn (by simp [ha, hamt])⟩
  case Withdrawal =>
    obtain ⟨amt, ha, hlt, rfl⟩ := handle_withdraw_ok hd
    have hamt : amt.isNonNeg = true := (F64.zero_le_iff amt).mp (hq amt ha)
    have hblt : F64.blt a.available amt = false := Bool.eq_false_iff.mpr hlt
    rcases F64.sub_isNonNeg_or_nan hav hblt with hok | hnan
    · exact ⟨hok, amountsNN_insertTx hnn (by simp [ha, hamt])⟩
    · rw [check_eq_false_of_nan hnan] at hchk
      exact Bool.noConfusion hchk
  case Dispute =>
    obtain ⟨ref, amt, href, hud, hrty, ha, hlt, rfl⟩ := handle_dispute_ok hd
    have hblt : F64.blt a.available amt = false := Bool.eq_false_iff.mpr hlt
    rcases F64.sub_isNonNeg_or_nan hav hblt with hok | hnan
    · exact ⟨hok, amountsNN_updateTx_setDispute true hnn href⟩
    · rw [check_eq_false_of_nan hnan] at hchk
      exact Bool.noConfusion hchk
  case Resolve =>
    obtain ⟨ref, amt, href, hud, hrty, ha, rfl⟩ := handle_resolve_ok hd
    have hE : (ref.amount.getD 0).isNonNeg = true :=
      hnn (t.transaction_id, ref) (lookupTx_mem href)
    rw [ha] at hE
    exact ⟨F64.add_isNonNeg hav (by simpa using hE),
      amountsNN_updateTx_setDispute false hnn href⟩
  case Chargeback =>
    obtain ⟨ref, amt, href, hud, ha, rfl⟩ := handle_chargeback_ok hd
    exact ⟨hav, hnn⟩

lemma reachableNN_inv {a : Account} (h : ReachableNN a) : InvNN a := by
  induction h with
  | init c =>
    refine ⟨rfl, ?_⟩
    intro e he
    simp [Account.new] at he
  | step hr ht hex ih =>
    obtain ⟨hl, hd, hchk⟩ := execute_ok hex
    exact dispatch_invNN ih (fun q hq => ht.2 q hq) hd hchk

/-! ### Concrete values used to instantiate the theorems

The binary64 constants below are written as canonical mantissa/exponent pairs;
each doc comment records the decimal literal they are the nearest double of. -/

/-- The binary64 value of the literal `0.1`. -/
def lit0_1 : Amount := F64.finite 7205759403792794 (-56)

/-- The binary64 value of the literal `1e17` (exactly representable). -/
def lit1e17 : Amount := F64.finite 6250000000000000 4

/-- The binary64 value of the literal `1e-16`. -/
def lit1em16 : Amount := F64.finite 8112963841460668 (-106)

/-- The binary64 value of the literal `1e12` (exactly representable). -/
def lit1e12 : Amount := F64.finite 8192000000000000 (-13)

/-- The binary64 sum `0.1 + 1e12`. -/
def litV2av : Amount := F64.finite 8192000000000819 (-13)

/-- A deposit of 5 with transaction id 1. -/
def wDeposit : Transaction :=
  { transaction_type := TransactionType.Deposit, client_id := 0, transaction_id := 1
    amount := some 5, under_dispute := false }

/-- The account obtained by executing `wDeposit` on a fresh account. -/
def wAcc : Account :=
  { client_id := 0, transactions := [(1, wDeposit)], available := 5, held := 0, total := 5
    locked := false }

/-- A withdrawal of 3 with transaction id 2. -/
def wWithdrawal : Transaction :=
  { transaction_type := TransactionType.Withdrawal, client_id := 0, transaction_id := 2
    amount := some 3, under_dispute := false }

/-- A dispute referencing transaction id 1. -/
def wDispute : Transaction :=
  { transaction_type := TransactionType.Dispute, client_id := 0, transaction_id := 1
    amount := none, under_dispute := false }

/-- A resolve referencing transaction id 1. -/
def wResolve : Transaction :=
  { transaction_type := TransactionType.Resolve, client_id := 0, transaction_id := 1
    amount := none, under_dispute := false }

/-- A second deposit on the already-used transaction id 1. -/
def wDeposit2 : Transaction :=
  { transaction_type := TransactionType.Deposit, client_id := 0, transaction_id := 1
    amount := some 2, under_dispute := false }

/-- A locked account. -/
def wLocked : Account :=
  { client_id := 0, transactions := [], available := 0, held := 0, total := 0, locked := true }

lemma execute_new_wDeposit : Account.execute (Account.new 0) wDeposit = Outcome.ok wAcc := by
  decide

lemma wAcc_reachable : Reachable wAcc :=
  ReachableVia.step (ReachableVia.init 0)
    (show wDeposit.under_dispute = false from rfl) execute_new_wDeposit

lemma wAcc_reachableAny : ReachableAny wAcc :=
  ReachableVia.step (ReachableVia.init 0) trivial execute_new_wDeposit

lemma wAcc_reachableNN : ReachableNN wAcc := by
  refine ReachableVia.step (ReachableVia.init 0) ⟨rfl, ?_⟩ execute_new_wDeposit
  intro q hq
  simp only [wDeposit, Option.some.injEq] at hq
  rw [← hq]
  decide

/-- A deposit of 0.1 with transaction id 1. -/
def cDep01 : Transaction :=
  { transaction_type := TransactionType.Deposit, client_id := 0, transaction_id := 1
    amount := some lit0_1, under_dispute := false }

/-- A deposit of 1e17 with transaction id 2. -/
def cDep1e17 : Transaction :=
  { transaction_type := TransactionType.Deposit, client_id := 0, transaction_id := 2
    amount := some lit1e17, under_dispute := false }

/-- A deposit of 1e17 with transaction id 1. -/
def cDep1e17a : Transaction :=
  { transaction_type := TransactionType.Deposit, client_id := 0, transaction_id := 1
    amount := some lit1e17, under_dispute := false }

/-- A deposit of 1e12 with transaction id 2. -/
def cDep1e12 : Transaction :=
  { transaction_type := TransactionType.Deposit, client_id := 0, transaction_id := 2
    amount := some lit1e12, under_dispute := false }

/-- A withdrawal of 0.1 with transaction id 3. -/
def cWd01 : Transaction :=
  { transaction_type := TransactionType.Withdrawal, client_id := 0, transaction_id := 3
    amount := some lit0_1, under_dispute := false }

/-- A dispute referencing transaction id 1. -/
def cDisp1 : Transaction :=
  { transaction_type := TransactionType.Dispute, client_id := 0, transaction_id := 1
    amount := none, under_dispute := false }

/-- The state after depositing 0.1 on a fresh account. -/
def cS1 : Account :=
  { client_id := 0, transactions := [(1, cDep01)], available := lit0_1, held := 0
    total := lit0_1, locked := false }

/-- The state after then depositing 1e17: the 0.1 is absorbed by rounding. -/
def cS2 : Account :=
  { client_id := 0, transactions := [(1, cDep01), (2, cDep1e17)], available := lit1e17
    held := 0, total := lit1e17, locked := false }

/-- The state the dispute handler produces from `cS2` when disputing the
0.1-deposit: `held = 0.1` while `total - available = 0`, so the second
consistency assertion fires. -/
def cBad : Account :=
  { client_id := 0, transactions := [(1, setDispute true cDep01), (2, cDep1e17)]
    available := lit1e17, held := lit0_1, total := lit1e17, locked := false }

/-- The state after depositing 1e17 (id 2) on a fresh account. -/
def cA : Account :=
  { client_id := 0, transactions := [(2, cDep1e17)], available := lit1e17, held := 0
    total := lit1e17, locked := false }

/-- The state after then withdrawing 0.1: the subtraction rounds back to 1e17,
so the withdrawal succeeds without changing any balance. -/
def cB : Account :=
  { client_id := 0, transactions := [(2, cDep1e17), (3, cWd01)], available := lit1e17
    held := 0, total := lit1e17, locked := false }

/-- The state after depositing 0.1 then 1e12. -/
def cV2 : Account :=
  { client_id := 0, transactions := [(1, cDep01), (2, cDep1e12)], available := litV2av
    held := 0, total := litV2av, locked := false }

/-- The state after then disputing the 0.1-deposit: available drops to exactly
1e12, a decrease of 0.0999755859375, not 0.1. -/
def cV3 : Account :=
  { client_id := 0, transactions := [(1, setDispute true cDep01), (2, cDep1e12)]
    available := lit1e12, held := lit0_1, total := litV2av, locked := false }

/-- A deposit of 1e-16 with transaction id 1. -/
def cDep1em16 : Transaction :=
  { transaction_type := TransactionType.Deposit, client_id := 0, transaction_id := 1
    amount := some lit1em16, under_dispute := false }

/-- A deposit of 1.0 with transaction id 2. -/
def cDepOneA : Transaction :=
  { transaction_type := TransactionType.Deposit, client_id := 0, transaction_id := 2
    amount := some 1, under_dispute := false }

/-- A deposit of 1.0 with transaction id 3. -/
def cDepOneB : Transaction :=
  { transaction_type := TransactionType.Deposit, client_id := 0, transaction_id := 3
    amount := some 1, under_dispute := false }

/-- A dispute referencing transaction id 2. -/
def cDisp2 : Transaction :=
  { transaction_type := TransactionType.Dispute, client_id := 0, transaction_id := 2
    amount := none, under_dispute := false }

/-- A resolve referencing transaction id 2. -/
def cRes2 : Transaction :=
  { transaction_type := TransactionType.Resolve, client_id := 0, transaction_id := 2
    amount := none, under_dispute := false }

/-- A resolve referencing transaction id 1. -/
def cRes1 : Transaction :=
  { transaction_type := TransactionType.Resolve, client_id := 0, transaction_id := 1
    amount := none, under_dispute := false }

/-- After depositing 1e-16. -/
def cU1 : Account :=
  { client_id := 0, transactions := [(1, cDep1em16)], available := lit1em16, held := 0
    total := lit1em16, locked := false }

/-- After then depositing 1.0 (the 1e-16 is absorbed). -/
def cU2 : Account :=
  { client_id := 0, transactions := [(1, cDep1em16), (2, cDepOneA)], available := 1
    held := 0, total := 1, locked := false }

/-- After then depositing another 1.0. -/
def cU3 : Account :=
  { client_id := 0, transactions := [(1, cDep1em16), (2, cDepOneA), (3, cDepOneB)]
    available := 2, held := 0, total := 2, locked := false }

/-- After disputing the 1e-16 deposit: `held = 1e-16`, `available` still 2. -/
def cU4 : Account :=
  { client_id := 0
    transactions := [(1, setDispute true cDep1em16), (2, cDepOneA), (3, cDepOneB)]
    available := 2, held := lit1em16, total := 2, locked := false }

/-- After also disputing the 1.0 deposit: the `held` addition absorbs the
1e-16. -/
def cU5 : Account :=
  { client_id := 0
    transactions := [(1, setDispute true cDep1em16), (2, setDispute true cDepOneA),
      (3, cDepOneB)]
    available := 1, held := 1, total := 2, locked := false }

/-- After resolving the 1.0 deposit: `held` is now exactly 0, not the 1e-16 it
was before that dispute. -/
def cU6 : Account :=
  { client_id := 0
    transactions := [(1, setDispute true cDep1em16), (2, cDepOneA), (3, cDepOneB)]
    available := 2, held := 0, total := 2, locked := false }

/-- After finally resolving the 1e-16 deposit: `held = -1e-16 < 0`, with every
consistency assertion passing and every input amount non-negative. -/
def cU7 : Account :=
  { client_id := 0
    transactions := [(1, cDep1em16), (2, cDepOneA), (3, cDepOneB)]
    available := 2, held := F64.finite (-8112963841460668) (-106), total := 2
    locked := false }

/-- A deposit with the negative amount -1, accepted without any sign check. -/
def negDeposit : Transaction :=
  { transaction_type := TransactionType.Deposit, client_id := 0, transaction_id := 1
    amount := some (-1), under_dispute := false }

/-- The state reached by executing `negDeposit` on a fresh account. -/
def negAccount : Account :=
  { client_id := 0, transactions := [(1, negDeposit)], available := -1, held := 0
    total := -1, locked := false }

/-- The state after depositing 1e17 under transaction id 1. -/
def cG1 : Account :=
  { client_id := 0, transactions := [(1, cDep1e17a)], available := lit1e17, held := 0
    total := lit1e17, locked := false }

/-- The state after depositing 1e17 under id 1 and disputing it. -/
def cG2 : Account :=
  { client_id := 0, transactions := [(1, setDispute true cDep1e17a)], available := 0
    held := lit1e17, total := lit1e17, locked := false }

/-- The state after depositing 1e17 under id 1 and then depositing 0.1 under
the same id: the entry is replaced, the 0.1 is absorbed into both balances. -/
def cG3 : Account :=
  { client_id := 0, transactions := [(1, cDep01)], available := lit1e17, held := 0
    total := lit1e17, locked := false }

/-! ### The claims -/

/-- C1 (amended): every reachable account state satisfies the balance
assertion — `total == available + held` within the binary64 tolerance check
with `eps = 0.0001` — because `execute` succeeds only when the assertion
passes.  (The original claim's stronger half, that the assertion never fires
after a successful dispatch on a reachable state, is refuted by
`claim_C1_counterexample`.) -/
theorem claim_C1 (a : Account) (h : ReachableAny a) :
    Account.check_consistency a = true := by
  induction h with
  | init c => rfl
  | step hr ht hex ih => exact (execute_ok hex).2.2

theorem claim_C1_witness : Account.check_consistency wAcc = true :=
  claim_C1 wAcc wAcc_reachableAny

/-- C1, counterexample: deposit 0.1, deposit 1e17, then dispute the
0.1-deposit.  The dispatch succeeds, but on its result
`|held - (total - available)| = 0.1 ≥ 0.0001`, so the consistency assertion
fires and `execute` panics on a reachable state. -/
theorem claim_C1_counterexample :
    Account.execute (Account.new 0) cDep01 = Outcome.ok cS1 ∧
    Account.execute cS1 cDep1e17 = Outcome.ok cS2 ∧
    Account.dispatch cS2 cDisp1 = Outcome.ok cBad ∧
    Account.check_consistency cBad = false ∧
    Account.execute cS2 cDisp1 = Outcome.panic := by
  refine ⟨by decide, by decide, by decide, by decide, by decide⟩

/-- C2: whenever `execute` returns an error, the account it leaves behind is
exactly the account it started from — balances, lock flag and the whole
history (including every stored dispute flag) are unchanged. -/
theorem claim_C2 (a : Account) (t : Transaction) (e : AccountError) (b : Account)
    (h : Account.execute a t = Outcome.fail e b) : b = a :=
  execute_fail h

theorem claim_C2_witness :
    Account.execute wLocked wDeposit = Outcome.fail AccountError.AccountLocked wLocked ∧
    wLocked = wLocked := by
  have hx : Account.execute wLocked wDeposit =
      Outcome.fail AccountError.AccountLocked wLocked := by decide
  exact ⟨hx, claim_C2 wLocked wDeposit AccountError.AccountLocked wLocked hx⟩

/-- C3: a locked account is absorbing — every `execute` call on it, for every
transaction kind, fails with `AccountLocked` and leaves the account unchanged;
in particular `locked` can never be reset to `false`. -/
theorem claim_C3 (a : Account) (h : a.locked = true) (t : Transaction) :
    Account.execute a t = Outcome.fail AccountError.AccountLocked a := by
  simp only [Account.execute, h, if_true]

theorem claim_C3_witness :
    wLocked.locked = true ∧
    Account.execute wLocked wWithdrawal = Outcome.fail AccountError.AccountLocked wLocked :=
  ⟨rfl, claim_C3 wLocked rfl wWithdrawal⟩

/-- C4 (amended): on an unlocked account, a withdrawal of `amt` fails with
`InsufficientFunds` exactly when `available < amt` (in the binary64
comparison), leaving the state unchanged; otherwise `available` and `total`
are updated by binary64 subtraction — which need not decrease them by exactly
`amt` (see `claim_C4_counterexample`) — the withdrawal is stored under its
transaction id, and the consistency assertion is then re-checked, the program
panicking if it fails. -/
theorem claim_C4 (a : Account) (t : Transaction) (amt : Amount)
    (hl : a.locked = false)
    (hk : t.transaction_type = TransactionType.Withdrawal)
    (ha : t.amount = some amt) :
    (Account.execute a t = Outcome.fail AccountError.InsufficientFunds a ↔
      a.available < amt) ∧
    (¬ a.available < amt →
      Account.execute a t =
        if Account.check_consistency { a with
            available := a.available - amt
            total := a.total - amt
            transactions := insertTx a.transactions t.transaction_id t } then
          Outcome.ok { a with
            available := a.available - amt
            total := a.total - amt
            transactions := insertTx a.transactions t.transaction_id t }
        else Outcome.panic) := by
  have hd : ¬ a.available < amt →
      Account.dispatch a t = Outcome.ok { a with
        available := a.available - amt
        total := a.total - amt
        transactions := insertTx a.transactions t.transaction_id t } := by
    intro hle
    simp only [Account.dispatch, hk, Account.handle_withdraw, ha, if_neg hle]
  refine ⟨⟨?_, ?_⟩, fun hle => execute_eq_ite hl (hd hle)⟩
  · intro hf
    by_contra hnot
    rw [execute_eq_ite hl (hd hnot)] at hf
    split at hf
    · exact Outcome.noConfusion hf
    · exact Outcome.noConfusion hf
  · intro hlt
    refine execute_of_dispatch_fail hl ?_
    simp only [Account.dispatch, hk, Account.handle_withdraw, ha, if_pos hlt]

theorem claim_C4_witness :
    Account.execute wAcc wWithdrawal =
      if Account.check_consistency { wAcc with
          available := wAcc.available - 3
          total := wAcc.total - 3
          transactions := insertTx wAcc.transactions wWithdrawal.transaction_id wWithdrawal } then
        Outcome.ok { wAcc with
          available := wAcc.available - 3
          total := wAcc.total - 3
          transactions := insertTx wAcc.transactions wWithdrawal.transaction_id wWithdrawal }
      else Outcome.panic :=
  (claim_C4 wAcc wWithdrawal 3 rfl rfl rfl).2 (by decide)

/-- C4, counterexample: withdrawing 0.1 at `available = 1e17` succeeds — the
binary64 subtraction rounds back to 1e17 — so available and total decrease by
zero, not by the (positive) withdrawn amount. -/
theorem claim_C4_counterexample :
    Account.execute (Account.new 0) cDep1e17 = Outcome.ok cA ∧
    Account.execute cA cWd01 = Outcome.ok cB ∧
    cB.available = cA.available ∧ cB.total = cA.total ∧ (0 : Amount) < lit0_1 := by
  refine ⟨by decide, by decide, by decide, by decide, by decide⟩

lemma setDispute_setDispute (b b' : Bool) (t : Transaction) :
    setDispute b (setDispute b' t) = setDispute b t := rfl

/-- After a successful dispute, disputing the same id again fails with
`AlreadyDisputed`. -/
lemma dispute_twice {a : Account} {t : Transaction} {a₁ : Account}
    (hk : t.transaction_type = TransactionType.Dispute)
    (hex : Account.execute a t = Outcome.ok a₁) :
    Account.execute a₁ t = Outcome.fail AccountError.AlreadyDisputed a₁ := by
  obtain ⟨hl, hd, hc⟩ := execute_ok hex
  simp only [Account.dispatch, hk] at hd
  obtain ⟨ref, amt, href, hud, hrty, ha, hle, rfl⟩ := handle_dispute_ok hd
  obtain ⟨m₁, m₂, hmeq, hne, hupd⟩ := updateTx_of_lookup (f := setDispute true) href
  have hlook : lookupTx (updateTx (setDispute true) a.transactions t.transaction_id)
      t.transaction_id = some (setDispute true ref) := by
    rw [hupd]
    exact lookupTx_append_right _ hne
  refine execute_of_dispatch_fail hl ?_
  simp only [Account.dispatch, hk, Account.handle_dispute, hlook, setDispute_flag, if_true]

/-- C5 (amended): on an unlocked account, a dispute referencing `tx_id` fails
with `TransactionNotFound` when the id is absent, with `AlreadyDisputed` when
the stored transaction is already disputed, with `InvalidDisputeTarget` when
it is a withdrawal, and with `InsufficientFunds` when it is a deposit of `amt`
with `available < amt`; otherwise `amt` is moved from `available` to `held` by
binary64 subtraction and addition (not exactly — see
`claim_C5_counterexample`), the stored transaction is marked disputed, and the
consistency assertion is re-checked, panicking if it fails; when the dispute
does succeed, disputing the same id again fails with `AlreadyDisputed`. -/
theorem claim_C5 (a : Account) (t : Transaction)
    (hl : a.locked = false)
    (hk : t.transaction_type = TransactionType.Dispute) :
    (lookupTx a.transactions t.transaction_id = none →
      Account.execute a t = Outcome.fail AccountError.TransactionNotFound a) ∧
    ∀ ref, lookupTx a.transactions t.transaction_id = some ref →
      (ref.under_dispute = true →
        Account.execute a t = Outcome.fail AccountError.AlreadyDisputed a) ∧
      (ref.under_dispute = false →
        ref.transaction_type = TransactionType.Withdrawal →
        Account.execute a t = Outcome.fail AccountError.InvalidDisputeTarget a) ∧
      ∀ amt, ref.under_dispute = false →
        ref.transaction_type = TransactionType.Deposit → ref.amount = some amt →
        (a.available < amt →
          Account.execute a t = Outcome.fail AccountError.InsufficientFunds a) ∧
        (¬ a.available < amt →
          Account.execute a t =
            (if Account.check_consistency { a with
                available := a.available - amt
                held := a.held + amt
                transactions := updateTx (setDispute true) a.transactions t.transaction_id } then
              Outcome.ok { a with
                available := a.available - amt
                held := a.held + amt
                transactions := updateTx (setDispute true) a.transactions t.transaction_id }
            else Outcome.panic) ∧
          ∀ a₁, Account.execute a t = Outcome.ok a₁ →
            Account.execute a₁ t = Outcome.fail AccountError.AlreadyDisputed a₁) := by
  constructor
  · intro hnone
    refine execute_of_dispatch_fail hl ?_
    simp only [Account.dispatch, hk, Account.handle_dispute, hnone]
  · intro ref href
    refine ⟨?_, ?_, ?_⟩
    · intro hud
      refine execute_of_dispatch_fail hl ?_
      simp only [Account.dispatch, hk, Account.handle_dispute, href, hud, if_true]
    · intro hud hwty
      refine execute_of_dispatch_fail hl ?_
      simp only [Account.dispatch, hk, Account.handle_dispute, href, hud,
        Bool.false_eq_true, if_false, hwty]
    · intro amt hud hrty ha
      constructor
      · intro hlt
        refine execute_of_dispatch_fail hl ?_
        simp only [Account.dispatch, hk, Account.handle_dispute, href, hud,
          Bool.false_eq_true, if_false, hrty, ha, if_pos hlt]
      · intro hle
        have hd : Account.dispatch a t = Outcome.ok { a with
            available := a.available - amt
            held := a.held + amt
            transactions := updateTx (setDispute true) a.transactions t.transaction_id } := by
          simp only [Account.dispatch, hk, Account.handle_dispute, href, hud,
            Bool.false_eq_true, if_false, hrty, ha, if_neg hle]
        exact ⟨execute_eq_ite hl hd, fun a₁ h₁ => dispute_twice hk h₁⟩

theorem claim_C5_witness :
    Account.execute wAcc wDispute =
      if Account.check_consistency { wAcc with
          available := wAcc.available - 5
          held := wAcc.held + 5
          transactions := updateTx (setDispute true) wAcc.transactions wDispute.transaction_id } then
        Outcome.ok { wAcc with
          available := wAcc.available - 5
          held := wAcc.held + 5
          transactions := updateTx (setDispute true) wAcc.transactions wDispute.transaction_id }
      else Outcome.panic :=
  ((((claim_C5 wAcc wDispute rfl rfl).2 wDeposit rfl).2.2
    5 rfl rfl rfl).2 (by decide)).1

/-- C5, counterexample: two failures of the original success clause.  First,
at `available = 1e17` a dispute of the undisputed 0.1-deposit with
`amt ≤ available` panics in the consistency assertion instead of succeeding.
Second, at `available = 0.1 + 1e12` the same dispute succeeds but decreases
`available` by 0.0999755859375 — the binary64 difference of the old and new
balance is not 0.1. -/
theorem claim_C5_counterexample :
    (lookupTx cS2.transactions 1 = some cDep01 ∧ cDep01.under_dispute = false ∧
      cDep01.transaction_type = TransactionType.Deposit ∧
      ¬ cS2.available < lit0_1 ∧ cS2.locked = false ∧
      Account.execute cS2 cDisp1 = Outcome.panic) ∧
    (Account.execute cS1 cDep1e12 = Outcome.ok cV2 ∧
      Account.execute cV2 cDisp1 = Outcome.ok cV3 ∧
      cV2.available - cV3.available ≠ lit0_1) := by
  refine ⟨⟨by decide, by decide, by decide, by decide, by decide, by decide⟩,
    by decide, by decide, by decide⟩

/-- C6 (amended): on an unlocked account holding an undisputed deposit of
`amt` with `amt ≤ available`, disputing that deposit and then resolving it
restores the history — the dispute flag included — and `total` exactly, but
restores `available` and `held` only through the binary64 round trips
`(available - amt) + amt` and `(held + amt) - amt`, which need not equal the
original values (see `claim_C6_counterexample`); each step re-checks the
consistency assertion, panicking if it fails. -/
theorem claim_C6 (a : Account) (i : TransactionId) (ref : Transaction) (amt : Amount)
    (d r : Transaction) (hl : a.locked = false)
    (href : lookupTx a.transactions i = some ref)
    (hrty : ref.transaction_type = TransactionType.Deposit)
    (hud : ref.under_dispute = false)
    (hra : ref.amount = some amt) (hle : ¬ a.available < amt)
    (hdk : d.transaction_type = TransactionType.Dispute) (hdi : d.transaction_id = i)
    (hrk : r.transaction_type = TransactionType.Resolve) (hri : r.transaction_id = i) :
    Account.execute a d =
      (if Account.check_consistency { a with
          available := a.available - amt
          held := a.held + amt
          transactions := updateTx (setDispute true) a.transactions i } then
        Outcome.ok { a with
          available := a.available - amt
          held := a.held + amt
          transactions := updateTx (setDispute true) a.transactions i }
      else Outcome.panic) ∧
    Account.execute { a with
        available := a.available - amt
        held := a.held + amt
        transactions := updateTx (setDispute true) a.transactions i } r =
      (if Account.check_consistency { a with
          available := a.available - amt + amt
          held := a.held + amt - amt } then
        Outcome.ok { a with
          available := a.available - amt + amt
          held := a.held + amt - amt }
      else Outcome.panic) := by
  subst hdi
  obtain ⟨m₁, m₂, hmeq, hne, hupd⟩ := updateTx_of_lookup (f := setDispute true) href
  constructor
  · refine execute_eq_ite hl ?_
    simp only [Account.dispatch, hdk, Account.handle_dispute, href, hud,
      Bool.false_eq_true, if_false, hrty, hra, if_neg hle]
  · have hlook : lookupTx (updateTx (setDispute true) a.transactions d.transaction_id)
        r.transaction_id = some (setDispute true ref) := by
      rw [hri, hupd]
      exact lookupTx_append_right _ hne
    have htx2 : updateTx (setDispute false)
        (updateTx (setDispute true) a.transactions d.transaction_id) r.transaction_id =
        a.transactions := by
      rw [hri, hupd, updateTx_append hne, setDispute_setDispute, setDispute_eq_self hud,
        ← hmeq]
    refine execute_eq_ite hl ?_
    simp only [Account.dispatch, hrk, Account.handle_resolve, hlook, setDispute_flag,
      Bool.true_eq_false, if_false, setDispute_type, hrty, setDispute_amount, hra]
    rw [htx2]

theorem claim_C6_witness :
    Account.execute wAcc wDispute =
      (if Account.check_consistency { wAcc with
          available := wAcc.available - 5
          held := wAcc.held + 5
          transactions := updateTx (setDispute true) wAcc.transactions 1 } then
        Outcome.ok { wAcc with
          available := wAcc.available - 5
          held := wAcc.held + 5
          transactions := updateTx (setDispute true) wAcc.transactions 1 }
      else Outcome.panic) ∧
    Account.execute { wAcc with
        available := wAcc.available - 5
        held := wAcc.held + 5
        transactions := updateTx (setDispute true) wAcc.transactions 1 } wResolve =
      (if Account.check_consistency { wAcc with
          available := wAcc.available - 5 + 5
          held := wAcc.held + 5 - 5 } then
        Outcome.ok { wAcc with
          available := wAcc.available - 5 + 5
          held := wAcc.held + 5 - 5 }
      else Outcome.panic) :=
  claim_C6 wAcc 1 wDeposit 5 wDispute wResolve rfl rfl rfl rfl rfl (by decide)
    rfl rfl rfl rfl

/-- C6, counterexample: from the reachable state with `available = 2.0`,
`held = 1e-16`, disputing and then resolving the stored 1.0-deposit (which is
undisputed, with 1.0 ≤ available) succeeds with every assertion passing, yet
leaves `held = 0.0 ≠ 1e-16` — the round trip is not exact. -/
theorem claim_C6_counterexample :
    Account.execute (Account.new 0) cDep1em16 = Outcome.ok cU1 ∧
    Account.execute cU1 cDepOneA = Outcome.ok cU2 ∧
    Account.execute cU2 cDepOneB = Outcome.ok cU3 ∧
    Account.execute cU3 cDisp1 = Outcome.ok cU4 ∧
    lookupTx cU4.transactions 2 = some cDepOneA ∧
    cDepOneA.under_dispute = false ∧
    cDepOneA.transaction_type = TransactionType.Deposit ∧
    cDepOneA.amount = some 1 ∧ ¬ cU4.available < (1 : Amount) ∧
    Account.execute cU4 cDisp2 = Outcome.ok cU5 ∧
    Account.execute cU5 cRes2 = Outcome.ok cU6 ∧
    cU6.held ≠ cU4.held := by
  refine ⟨by decide, by decide, by decide, by decide, by decide, by decide, by decide,
    by decide, by decide, by decide, by decide, by decide⟩

/-- C8: on every reachable account the history holds only deposit and
withdrawal records, a stored withdrawal is never marked disputed, the
`panic!("the 'impossible' happened")` arms of the dispute and resolve handlers
are unreachable (the handlers never panic), and the resolve handler never
reaches its `InvalidDisputeTarget` arm. -/
theorem claim_C8 (a : Account) (h : Reachable a) :
    (∀ k t, lookupTx a.transactions k = some t →
      (t.transaction_type = TransactionType.Deposit ∨
        t.transaction_type = TransactionType.Withdrawal) ∧
      (t.transaction_type = TransactionType.Withdrawal → t.under_dispute = false)) ∧
    (∀ t, Account.handle_dispute a t ≠ Outcome.panic) ∧
    (∀ t, Account.handle_resolve a t ≠ Outcome.panic) ∧
    (∀ t b, Account.handle_resolve a t ≠
      Outcome.fail AccountError.InvalidDisputeTarget b) := by
  have hwf := reachable_histWF h
  refine ⟨?_, ?_, ?_, ?_⟩
  · intro k t hlk
    have hE : EntryWF t := hwf (k, t) (lookupTx_mem hlk)
    exact ⟨hE.1, hE.2.2⟩
  · intro t hcon
    cases href : lookupTx a.transactions t.transaction_id with
    | none =>
      simp only [Account.handle_dispute, href] at hcon
      exact Outcome.noConfusion hcon
    | some ref =>
      have hE : EntryWF ref := hwf (t.transaction_id, ref) (lookupTx_mem href)
      obtain ⟨hor, ⟨q, hq⟩, hwd⟩ := hE
      cases hud : ref.under_dispute with
      | true =>
        simp only [Account.handle_dispute, href, hud, if_true] at hcon
        exact Outcome.noConfusion hcon
      | false =>
        rcases hor with hD | hW
        · by_cases hlt : a.available < q
          · simp only [Account.handle_dispute, href, hud, Bool.false_eq_true, if_false,
              hD, hq, if_pos hlt] at hcon
            exact Outcome.noConfusion hcon
          · simp only [Account.handle_dispute, href, hud, Bool.false_eq_true, if_false,
              hD, hq, if_neg hlt] at hcon
            exact Outcome.noConfusion hcon
        · simp only [Account.handle_dispute, href, hud, Bool.false_eq_true, if_false,
            hW] at hcon
          exact Outcome.noConfusion hcon
  · intro t hcon
    cases href : lookupTx a.transactions t.transaction_id with
    | none =>
      simp only [Account.handle_resolve, href] at hcon
      exact Outcome.noConfusion hcon
    | some ref =>
      have hE : EntryWF ref := hwf (t.transaction_id, ref) (lookupTx_mem href)
      obtain ⟨hor, ⟨q, hq⟩, hwd⟩ := hE
      cases hud : ref.under_dispute with
      | false =>
        simp only [Account.handle_resolve, href, hud, eq_self_iff_true, if_true] at hcon
        exact Outcome.noConfusion hcon
      | true =>
        rcases hor with hD | hW
        · simp only [Account.handle_resolve, href, hud, Bool.true_eq_false, if_false,
            hD, hq] at hcon
          exact Outcome.noConfusion hcon
        · simp only [Account.handle_resolve, href, hud, Bool.true_eq_false, if_false,
            hW] at hcon
          exact Outcome.noConfusion hcon
  · intro t b hcon
    cases href : lookupTx a.transactions t.transaction_id with
    | none =>
      simp only [Account.handle_resolve, href] at hcon
      exact AccountError.noConfusion (Outcome.fail.inj hcon).1
    | some ref =>
      have hE : EntryWF ref := hwf (t.transaction_id, ref) (lookupTx_mem href)
      obtain ⟨hor, ⟨q, hq⟩, hwd⟩ := hE
      cases hud : ref.under_dispute with
      | false =>
        simp only [Account.handle_resolve, href, hud, eq_self_iff_true, if_true] at hcon
        exact AccountError.noConfusion (Outcome.fail.inj hcon).1
      | true =>
        rcases hor with hD | hW
        · simp only [Account.handle_resolve, href, hud, Bool.true_eq_false, if_false,
            hD, hq] at hcon
          exact Outcome.noConfusion hcon
        · rw [hwd hW] at hud
          exact Bool.noConfusion hud

theorem claim_C8_witness : Account.handle_dispute wAcc wDispute ≠ Outcome.panic :=
  (claim_C8 wAcc wAcc_reachable).2.1 wDispute

/-- C9, counterexample: the claim fails twice over.  A deposit of -1 on a
fresh account succeeds with `available = -1 < 0` (no sign check exists); and
even with every amount non-negative, the nonneg-deposit trace 1e-16, 1.0, 1.0
followed by disputing both and resolving the 1.0 before the 1e-16 reaches
`held = -1e-16 < 0` with every consistency assertion passing. -/
theorem claim_C9_counterexample :
    (Account.execute (Account.new 0) negDeposit = Outcome.ok negAccount ∧
      negAccount.available < 0) ∧
    ((0 : Amount) ≤ lit1em16 ∧ (0 : Amount) ≤ (1 : Amount) ∧
      Account.execute (Account.new 0) cDep1em16 = Outcome.ok cU1 ∧
      Account.execute cU1 cDepOneA = Outcome.ok cU2 ∧
      Account.execute cU2 cDepOneB = Outcome.ok cU3 ∧
      Account.execute cU3 cDisp1 = Outcome.ok cU4 ∧
      Account.execute cU4 cDisp2 = Outcome.ok cU5 ∧
      Account.execute cU5 cRes2 = Outcome.ok cU6 ∧
      Account.execute cU6 cRes1 = Outcome.ok cU7 ∧
      cU7.held < 0) := by
  refine ⟨⟨by decide, by decide⟩, by decide, by decide, by decide, by decide, by decide,
    by decide, by decide, by decide, by decide, by decide⟩

/-- C9 (amended): if every transaction handed to `execute` carries a
non-negative amount (in addition to the deserializer's
`under_dispute = false`), then `available` is non-negative in every reachable
state: deposits and the resolve credit add non-negative values, withdrawals
and disputes are guarded by the `available < amount` check, and a NaN result
is rejected by the consistency assertion.  (`held`, by contrast, can be driven
below zero by rounding even under this hypothesis — see
`claim_C9_counterexample`.) -/
theorem claim_C9 (a : Account) (h : ReachableNN a) : 0 ≤ a.available := by
  rw [F64.zero_le_iff]
  exact (reachableNN_inv h).1

theorem claim_C9_witness : (0 : Amount) ≤ wAcc.available :=
  claim_C9 wAcc wAcc_reachableNN

/-- C10 (amended): a deposit (or withdrawal) whose transaction id already
exists in the history is not rejected as a duplicate — no duplicate check
exists: the balances are updated by binary64 addition (which can absorb the
amount entirely), the new transaction replaces the stored entry, discarding
the old record and its dispute flag (so a resolve of that id now fails with
`NotUnderDispute`) — but the post-dispatch consistency assertion is re-checked
and can panic (see `claim_C10_counterexample`). -/
theorem claim_C10 (a : Account) (t old : Transaction) (amt : Amount)
    (hl : a.locked = false)
    (hdup : lookupTx a.transactions t.transaction_id = some old)
    (hk : t.transaction_type = TransactionType.Deposit)
    (ha : t.amount = some amt) (hf : t.under_dispute = false) :
    Account.execute a t =
      (if Account.check_consistency { a with
          available := a.available + amt
          total := a.total + amt
          transactions := insertTx a.transactions t.transaction_id t } then
        Outcome.ok { a with
          available := a.available + amt
          total := a.total + amt
          transactions := insertTx a.transactions t.transaction_id t }
      else Outcome.panic) ∧
    lookupTx (insertTx a.transactions t.transaction_id t) t.transaction_id = some t ∧
    (∀ r, r.transaction_type = TransactionType.Resolve →
      r.transaction_id = t.transaction_id →
      ∀ a₁, Account.execute a t = Outcome.ok a₁ →
        Account.execute a₁ r = Outcome.fail AccountError.NotUnderDispute a₁) ∧
    (∀ tw amtw, tw.transaction_type = TransactionType.Withdrawal →
      tw.amount = some amtw → ¬ a.available < amtw →
      Account.execute a tw =
        (if Account.check_consistency { a with
            available := a.available - amtw
            total := a.total - amtw
            transactions := insertTx a.transactions tw.transaction_id tw } then
          Outcome.ok { a with
            available := a.available - amtw
            total := a.total - amtw
            transactions := insertTx a.transactions tw.transaction_id tw }
        else Outcome.panic)) := by
  have hd : Account.dispatch a t = Outcome.ok { a with
      available := a.available + amt
      total := a.total + amt
      transactions := insertTx a.transactions t.transaction_id t } := by
    simp only [Account.dispatch, hk, Account.handle_deposit, ha]
  refine ⟨execute_eq_ite hl hd, lookupTx_insertTx_self _ _ _, ?_, ?_⟩
  · intro r hrk hri a₁ h₁
    obtain ⟨hl₁, hd₁, hc₁⟩ := execute_ok h₁
    simp only [Account.dispatch, hk] at hd₁
    obtain ⟨amt', ha', rfl⟩ := handle_deposit_ok hd₁
    have hlook : lookupTx (insertTx a.transactions t.transaction_id t)
        r.transaction_id = some t := by
      rw [hri]
      exact lookupTx_insertTx_self _ _ _
    refine execute_of_dispatch_fail hl ?_
    simp only [Account.dispatch, hrk, Account.handle_resolve, hlook, hf,
      eq_self_iff_true, if_true]
  · intro tw amtw htwk htwa htwle
    refine execute_eq_ite hl ?_
    simp only [Account.dispatch, htwk, Account.handle_withdraw, htwa, if_neg htwle]

theorem claim_C10_witness :
    Account.execute wAcc wDeposit2 =
      if Account.check_consistency { wAcc with
          available := wAcc.available + 2
          total := wAcc.total + 2
          transactions := insertTx wAcc.transactions wDeposit2.transaction_id wDeposit2 } then
        Outcome.ok { wAcc with
          available := wAcc.available + 2
          total := wAcc.total + 2
          transactions := insertTx wAcc.transactions wDeposit2.transaction_id wDeposit2 }
      else Outcome.panic :=
  (claim_C10 wAcc wDeposit2 wDeposit 2 rfl rfl rfl rfl rfl).1

/-- C10, counterexample: deposit 1e17 under id 1, dispute it, then deposit 0.1
under the same id — the duplicate deposit panics in the third consistency
assertion instead of being applied; and without the dispute, the duplicate
0.1-deposit succeeds but the binary64 addition absorbs the amount, leaving
`available` unchanged while the stored entry is replaced. -/
theorem claim_C10_counterexample :
    Account.execute (Account.new 0) cDep1e17a = Outcome.ok cG1 ∧
    Account.execute cG1 cDisp1 = Outcome.ok cG2 ∧
    Account.execute cG2 cDep01 = Outcome.panic ∧
    Account.execute cG1 cDep01 = Outcome.ok cG3 ∧
    cG3.available = cG1.available ∧ (0 : Amount) < lit0_1 ∧
    lookupTx cG3.transactions 1 = some cDep01 := by
  refine ⟨by decide, by decide, by decide, by decide, by decide, by decide, by decide⟩

end ToyPayments